import Mathlib

/-!
Verification of the cache-refresh scheduling state machine and the
usage-extraction / accounting engine of the SillyTavern cache-refresher
extension (file revision v2.2.1, the revision the specification was
written from).

The JavaScript source is shallowly embedded: JSON values become the
inductive type `JVal` (with an explicit `jundefined` constructor so that the
distinction between an absent property and a null property is kept),
module-level mutable state becomes explicit state records threaded through
the step functions, and host capabilities (generateQuietPrompt, toastr,
timers) become parameters or emitted events.  Floating-point money
amounts are modelled with rationals.  Each definition mirrors the source
function of the same name.
-/

set_option maxHeartbeats 1000000

namespace CacheRefresher

/-- JSON-ish runtime values as seen by the extension.  `jundefined` models the
JavaScript value `undefined` (absent property); arrays are not modelled
because no code path of the extension reads array elements. -/
inductive JVal where
  | jundefined : JVal
  | jnull : JVal
  | jnum : Int → JVal
  | jstr : String → JVal
  | jbool : Bool → JVal
  | jobj : List (String × JVal) → JVal
deriving Repr

/-- JavaScript truthiness for the modelled values.  Objects are always
truthy, numbers are truthy iff nonzero, strings iff nonempty. -/
def truthy : JVal → Bool
  | .jundefined => false
  | .jnull => false
  | .jnum n => n != 0
  | .jstr s => s != ""
  | .jbool b => b
  | .jobj _ => true

/-- Association-list lookup used for property reads on objects; a missing
key reads as `undefined`, as in JavaScript. -/
def findVal : List (String × JVal) → String → JVal
  | [], _ => .jundefined
  | (k2, v) :: rest, k => if k2 == k then v else findVal rest k

/-- Property read `v[k]`.  Reading a property of a non-object yields
`undefined` (all the reads in the source are guarded by optional
chaining, so the throwing cases of JavaScript never arise). -/
def getField (v : JVal) (k : String) : JVal :=
  match v with
  | .jobj fs => findVal fs k
  | _ => .jundefined

/-- `Object.entries` of a value: the own properties in insertion order;
empty for non-objects. -/
def jsEntries : JVal → List (String × JVal)
  | .jobj fs => fs
  | _ => []

/-- Strict equality test `v === s` against a string literal. -/
def strictEqStr (v : JVal) (s : String) : Bool :=
  match v with
  | .jstr t => t == s
  | _ => false

/-- Whether a value is the JavaScript `undefined`. -/
def isUndefined : JVal → Bool
  | .jundefined => true
  | _ => false

/-- Property write `o[k] = v` on an object given by its entry list: an
existing key is updated in place, a new key is appended, matching the
insertion-order semantics of JavaScript objects. -/
def setKey : List (String × JVal) → String → JVal → List (String × JVal)
  | [], k, v => [(k, v)]
  | (k2, v2) :: rest, k, v =>
      if k2 == k then (k2, v) :: rest else (k2, v2) :: setKey rest k v

/-- Embedding of `extractUsageFromObject` (part_000 lines 848-897): locate
a usage-like object inside a parsed response frame, trying the known
response shapes in the order of the source.  Returns `none` for the
JavaScript `return null`. -/
def extractUsageFromObject (v : JVal) : Option JVal :=
  match v with
  | .jobj _ =>
    -- if (obj.usage) return obj.usage;
    let usage := getField v "usage"
    if truthy usage then some usage
    else
      -- if (obj.message?.usage) return obj.message.usage;
      let msgUsage := getField (getField v "message") "usage"
      if truthy msgUsage then some msgUsage
      -- the two Anthropic streaming-event checks of the source are
      -- subsumed by the two checks above but are kept in source order
      else if strictEqStr (getField v "type") "message_start" && truthy msgUsage then
        some msgUsage
      else if strictEqStr (getField v "type") "message_delta" && truthy usage then
        some usage
      else
        -- if (obj.x_oaicompat_usage) return obj.x_oaicompat_usage;
        let xoai := getField v "x_oaicompat_usage"
        if truthy xoai then some xoai
        -- root-level cache token fields
        else if !isUndefined (getField v "cache_read_input_tokens")
             || !isUndefined (getField v "cache_creation_input_tokens") then
          some (.jobj
            [("cache_read_input_tokens", getField v "cache_read_input_tokens"),
             ("cache_creation_input_tokens", getField v "cache_creation_input_tokens"),
             ("input_tokens", getField v "input_tokens"),
             ("output_tokens", getField v "output_tokens")])
        else
          -- if (obj.response?.usage) ... if (obj.data?.usage) ...
          let respUsage := getField (getField v "response") "usage"
          if truthy respUsage then some respUsage
          else
            let dataUsage := getField (getField v "data") "usage"
            if truthy dataUsage then some dataUsage
            else none
  | _ => none

/-- JavaScript `a || b`: the first operand if truthy, otherwise the
second. -/
def jsOrJ (a b : JVal) : JVal := if truthy a then a else b

/-- The token-field fallback chain `a || b || 0` used by
`processCacheUsage` (part_000 lines 641-644). -/
def normTok (a b : JVal) : JVal := jsOrJ (jsOrJ a b) (.jnum 0)

/-- Reads the numeric result of a `|| 0` fallback chain.  The chain ends
in the literal `0`, so on token payloads (numeric, null or absent
fields) the result is always a number; non-numeric truthy fields are
outside the model and read as 0. -/
def asInt : JVal → Int
  | .jnum n => n
  | _ => 0

/-- The `cacheRead` value computed for a usage record:
`usage.cache_read_input_tokens || usage.cacheReadInputTokens || 0`. -/
def recordCacheRead (u : JVal) : Int :=
  asInt (normTok (getField u "cache_read_input_tokens") (getField u "cacheReadInputTokens"))

/-- The `cacheWrite` value computed for a usage record. -/
def recordCacheWrite (u : JVal) : Int :=
  asInt (normTok (getField u "cache_creation_input_tokens") (getField u "cacheCreationInputTokens"))

/-- The `input` value computed for a usage record. -/
def recordInput (u : JVal) : Int :=
  asInt (normTok (getField u "input_tokens") (getField u "prompt_tokens"))

/-- The `output` value computed for a usage record. -/
def recordOutput (u : JVal) : Int :=
  asInt (normTok (getField u "output_tokens") (getField u "completion_tokens"))

/-- A token field is numeric or falsy: exactly the values on which the
`|| 0` chains of the source behave like `asInt` of `normTok`. -/
def numOrFalsy (v : JVal) : Bool :=
  match v with
  | .jnum _ => true
  | v => !truthy v

/-- Well-formed usage payload: every recognized token field is numeric,
null or absent, as in real provider responses. -/
def wfUsage (u : JVal) : Bool :=
  numOrFalsy (getField u "cache_read_input_tokens")
  && numOrFalsy (getField u "cacheReadInputTokens")
  && numOrFalsy (getField u "cache_creation_input_tokens")
  && numOrFalsy (getField u "cacheCreationInputTokens")
  && numOrFalsy (getField u "input_tokens")
  && numOrFalsy (getField u "prompt_tokens")
  && numOrFalsy (getField u "output_tokens")
  && numOrFalsy (getField u "completion_tokens")

/-! ## Stream accumulator (part_000 lines 770-846)

`handleStreamingResponse` decodes the SSE byte stream into lines, parses
each data line as JSON and, for every frame in which
`extractUsageFromObject` finds usage, merges that usage into an
accumulator object; at stream end it hands the accumulator to
`processCacheUsage` exactly when the accumulator exists and has at least
one key.  The byte/line decoding and `JSON.parse` are host primitives;
the embedding works from the list of successfully parsed frames, in
stream order. -/

/-- Whether a value is the JavaScript `null`. -/
def isNull : JVal → Bool
  | .jnull => true
  | _ => false

/-- Strict equality test `v === 0` (true only for the number zero). -/
def isNumZero : JVal → Bool
  | .jnum n => n == 0
  | _ => false

/-- The merge guard of the stream accumulator (line 816):
`val !== undefined && val !== null && (val !== 0 || !usageData[key])`. -/
def mergeCond (acc : List (String × JVal)) (k : String) (v : JVal) : Bool :=
  !isUndefined v && !isNull v && (!isNumZero v || !truthy (findVal acc k))

/-- One iteration of the `for (const [key, val] of Object.entries(usage))`
merge loop. -/
def mergeStep (acc : List (String × JVal)) (kv : String × JVal) : List (String × JVal) :=
  if mergeCond acc kv.1 kv.2 then setKey acc kv.1 kv.2 else acc

/-- Merging all entries of one extracted usage value into the
accumulator, in entry order. -/
def mergeEntries (acc : List (String × JVal)) : List (String × JVal) →
    List (String × JVal)
  | [] => acc
  | e :: rest => mergeEntries (mergeStep acc e) rest

/-- Processing of one parsed stream frame (lines 807-821): extract usage;
if a truthy usage value was found, initialize the accumulator if needed
and merge the usage entries into it. -/
def streamAccum (acc : Option (List (String × JVal))) (frame : JVal) :
    Option (List (String × JVal)) :=
  match extractUsageFromObject frame with
  | some u => if truthy u then some (mergeEntries (acc.getD []) (jsEntries u)) else acc
  | none => acc

/-- The accumulated usage object at stream end, starting from the
`null` accumulator. -/
def streamUsageData (frames : List JVal) : Option (List (String × JVal)) :=
  frames.foldl streamAccum none

/-- Number of `processCacheUsage` calls made at stream end (lines
837-840): one call exactly when the accumulator is non-null and has at
least one key, zero calls otherwise. -/
def streamCalls (frames : List JVal) : Nat :=
  match streamUsageData frames with
  | some l => if l.length > 0 then 1 else 0
  | none => 0

/-- A usage field value that the merge can store: defined and non-null. -/
def populated (v : JVal) : Bool := !isUndefined v && !isNull v

/-- Whether one frame yields a usage object carrying at least one
populated field. -/
def frameHasPop (f : JVal) : Bool :=
  match extractUsageFromObject f with
  | some u => truthy u && (jsEntries u).any (fun kv => populated kv.2)
  | none => false

/-- Whether some frame of the stream yields a usage object carrying at
least one populated field. -/
def streamHasPopulated (frames : List JVal) : Bool := frames.any frameHasPop

/-- Whether the accumulator exists and has at least one key. -/
def accNonempty : Option (List (String × JVal)) → Bool
  | some l => !l.isEmpty
  | none => false

/-- First partial usage frame of the merge round-trip example. -/
def mergeFrameA : JVal :=
  .jobj [("usage", .jobj [("cacheRead", .jnum 0), ("input", .jnum 100)])]

/-- Second partial usage frame of the merge round-trip example. -/
def mergeFrameB : JVal :=
  .jobj [("usage", .jobj [("cacheRead", .jnum 500), ("input", .jnum 100)])]

/-- A token field that is absent, null or zero — the values the claims
single out as carrying no token count.  All of them are falsy, so the
`|| 0` fallback chains normalize them to 0. -/
def emptyTok (v : JVal) : Bool := isUndefined v || isNull v || isNumZero v

/-- The first example frame of the extraction test: an Anthropic
`message_start` envelope carrying usage inside `message.usage`. -/
def msgStartFrame : JVal :=
  .jobj [("type", .jstr "message_start"),
         ("message", .jobj [("usage",
            .jobj [("cache_read_input_tokens", .jnum 200),
                   ("input_tokens", .jnum 50)])])]

/-- The second example frame of the extraction test: an object with no
usage information anywhere. -/
def fooBarFrame : JVal := .jobj [("foo", .jstr "bar")]

/-! ## Settings, pricing and session statistics -/

/-- Pricing entry of `PRICING_MODELS`: dollars per million tokens,
modelled with rationals. -/
structure Pricing where
  input : ℚ
  cacheWrite : ℚ
  cacheRead : ℚ
deriving Repr, DecidableEq

/-- The static `PRICING_MODELS` table (part_000 lines 19-28). -/
def PRICING_MODELS : List (String × Pricing) :=
  [("claude-sonnet-4",   ⟨3, 375/100, 30/100⟩),
   ("claude-sonnet-4.5", ⟨3, 375/100, 30/100⟩),
   ("claude-opus-4",     ⟨15, 1875/100, 150/100⟩),
   ("claude-opus-4.5",   ⟨15, 1875/100, 150/100⟩),
   ("claude-haiku-4.5",  ⟨80/100, 1, 8/100⟩),
   ("claude-3.5-sonnet", ⟨3, 375/100, 30/100⟩),
   ("claude-3.5-haiku",  ⟨80/100, 1, 8/100⟩),
   ("claude-3-opus",     ⟨15, 1875/100, 150/100⟩)]

/-- Table lookup `PRICING_MODELS[key]`; `none` for an unknown key.  (The
model treats the table as a plain map: prototype-inherited properties of
JavaScript object literals are not modelled.) -/
def lookupPricing (key : String) : Option Pricing :=
  (PRICING_MODELS.find? (fun p => p.1 == key)).map (fun p => p.2)

/-- The extension settings relevant to the core logic, with the names of
`defaultSettings` (part_000 lines 31-51); presentation-only fields
(widget position, minimized state, display toggles) are omitted. -/
structure Settings where
  enabled : Bool
  interval : Nat
  maxRefreshes : Nat
  showNotifications : Bool
  monitorEnabled : Bool
  pricingModel : String
  consecutiveMissWarning : Int
deriving Repr, DecidableEq

/-- The default settings values. -/
def defaultSettings : Settings :=
  { enabled := true
    interval := 240000
    maxRefreshes := 5
    showNotifications := true
    monitorEnabled := true
    pricingModel := "claude-sonnet-4"
    consecutiveMissWarning := 3 }

/-- User-visible notifications emitted through `showNotification`. -/
inductive Notif where
  | limitReached : Notif
  | refreshed : Nat → Nat → Notif
  | refreshFailed : Notif
  | missWarning : Nat → Notif
  | statsReset : Notif
deriving Repr, DecidableEq

/-- `showNotification` (part_000 lines 119-125): emits the toast only
when notifications are enabled. -/
def notify (S : Settings) (n : Notif) : List Notif :=
  if S.showNotifications then [n] else []

/-- Recognizer for the terminal limit-reached notification. -/
def isLimitReached : Notif → Bool
  | .limitReached => true
  | _ => false

/-- Recognizer for the consecutive-miss warning notification. -/
def isMissWarning : Notif → Bool
  | .missWarning _ => true
  | _ => false

/-- The pricing entry used by `calculateSavings`:
`PRICING_MODELS[settings.pricingModel] || PRICING_MODELS[claude-sonnet-4]`. -/
def pricingFor (S : Settings) : Pricing :=
  (lookupPricing S.pricingModel).getD ⟨3, 375/100, 30/100⟩

/-- `calculateSavings` (part_000 lines 626-634): savings attributable to
the cached tokens of one record, using the configured pricing entry with
fallback to the claude-sonnet-4 entry.  The floating-point arithmetic of
the source is modelled with exact rational arithmetic. -/
def calculateSavings (S : Settings) (cacheReadTokens : Int) : ℚ :=
  let pricing := pricingFor S
  let regularCost := (cacheReadTokens : ℚ) / 1000000 * pricing.input
  let cachedCost := (cacheReadTokens : ℚ) / 1000000 * pricing.cacheRead
  max 0 (regularCost - cachedCost)

/-- One entry of `sessionStats.history`. -/
structure HistEntry where
  timestamp : Int
  isHit : Bool
  cacheRead : Int
  cacheWrite : Int
  input : Int
  output : Int
  savings : ℚ
deriving Repr, DecidableEq

/-- The `sessionStats` record (part_000 lines 72-83). -/
structure SessionStats where
  requests : Nat
  hits : Nat
  misses : Nat
  cacheReadTokens : Int
  cacheWriteTokens : Int
  inputTokens : Int
  outputTokens : Int
  savings : ℚ
  consecutiveMisses : Nat
  history : List HistEntry
deriving Repr, DecidableEq

/-- The zeroed statistics used at initialization and by
`resetCacheStats`. -/
def zeroStats : SessionStats :=
  { requests := 0, hits := 0, misses := 0, cacheReadTokens := 0
    cacheWriteTokens := 0, inputTokens := 0, outputTokens := 0
    savings := 0, consecutiveMisses := 0, history := [] }

/-- Monitor-side module state: the statistics plus `lastCacheHitTime`. -/
structure MonState where
  stats : SessionStats
  lastCacheHitTime : Option Int
deriving Repr, DecidableEq

/-- Monitor state at initialization. -/
def initMonState : MonState := ⟨zeroStats, none⟩

/-- The history append of `processCacheUsage` (lines 683-687): push the
entry, then trim to the most recent 100 entries when the length exceeds
100 (`history.slice(-100)`). -/
def histStep (h : List HistEntry) (e : HistEntry) : List HistEntry :=
  let h1 := h ++ [e]
  if h1.length > 100 then h1.drop (h1.length - 100) else h1

/-- The history entry built for one processed usage record. -/
def mkHistEntry (S : Settings) (now : Int) (u : JVal) : HistEntry :=
  { timestamp := now
    isHit := recordCacheRead u > 0
    cacheRead := recordCacheRead u
    cacheWrite := recordCacheWrite u
    input := recordInput u
    output := recordOutput u
    savings := calculateSavings S (recordCacheRead u) }

/-- Embedding of `processCacheUsage` (part_000 lines 636-693): normalize
the token fields, update the cumulative statistics, classify hit/miss,
fire the consecutive-miss warning exactly on the crossing, and append to
the bounded history.  `now` is the `Date.now()` clock value; the DOM and
message-metadata side effects are out of scope. -/
def processCacheUsage (S : Settings) (now : Int) (m : MonState) (usage : JVal) :
    MonState × List Notif :=
  if !truthy usage then (m, [])
  else if !S.monitorEnabled then (m, [])
  else
    let cacheRead := recordCacheRead usage
    let cacheWrite := recordCacheWrite usage
    let input := recordInput usage
    let output := recordOutput usage
    let isHit := cacheRead > 0
    let savings := calculateSavings S cacheRead
    let st := m.stats
    let st :=
      { st with
        requests := st.requests + 1
        cacheReadTokens := st.cacheReadTokens + cacheRead
        cacheWriteTokens := st.cacheWriteTokens + cacheWrite
        inputTokens := st.inputTokens + input
        outputTokens := st.outputTokens + output
        savings := st.savings + savings }
    if isHit then
      let st := { st with hits := st.hits + 1, consecutiveMisses := 0 }
      let st := { st with history := histStep st.history (mkHistEntry S now usage) }
      ({ stats := st, lastCacheHitTime := some now }, [])
    else
      let st := { st with misses := st.misses + 1
                          consecutiveMisses := st.consecutiveMisses + 1 }
      let warn :=
        if (st.consecutiveMisses : Int) == S.consecutiveMissWarning then
          notify S (.missWarning st.consecutiveMisses)
        else []
      let st := { st with history := histStep st.history (mkHistEntry S now usage) }
      ({ stats := st, lastCacheHitTime := m.lastCacheHitTime }, warn)

/-- `resetCacheStats` (part_000 lines 972-988): zero everything, clear
the last-hit time, notify. -/
def resetCacheStats (S : Settings) (_m : MonState) : MonState × List Notif :=
  (initMonState, notify S .statsReset)

/-- Runs `processCacheUsage` over a sequence of (clock value, usage)
pairs, collecting the emitted notifications in order. -/
def runMonitor (S : Settings) (us : List (Int × JVal)) (m : MonState) :
    MonState × List Notif :=
  match us with
  | [] => (m, [])
  | p :: rest =>
      let r := processCacheUsage S p.1 m p.2
      let rr := runMonitor S rest r.1
      (rr.1, r.2 ++ rr.2)

/-- The most recent `k` elements of a list, in order
(JavaScript `slice(-k)` for nonempty results). -/
def takeLast (k : Nat) (l : List α) : List α := l.drop (l.length - k)

/-- A concrete usage payload with five cached-read tokens, used by the
concrete instantiations. -/
def sampleHitUsage : JVal := .jobj [("cache_read_input_tokens", .jnum 5)]

/-- One concrete processed record. -/
def sampleRecords : List (Int × JVal) := [(0, sampleHitUsage)]

/-- Four concrete records with no token fields at all: each is a cache
miss. -/
def sampleMisses : List (Int × JVal) :=
  [(0, .jobj []), (1, .jobj []), (2, .jobj []), (3, .jobj [])]

/-! ## Cache-refresh scheduler (part_000 lines 53-61 and 145-280, 990-999)

Module-level mutable state becomes `RefState`; the one-shot fire timer
and the countdown interval become booleans meaning "callback pending";
`SillyTavern.getContext()` data read by `getCurrentChatId` and
`capturePromptData` becomes `HostCtx`. -/

/-- The character record as far as `getCurrentChatId` reads it. -/
structure Character where
  name : String
deriving Repr, DecidableEq

/-- Host-context snapshot: the fields of `SillyTavern.getContext()` that
the scheduler reads.  `character` is `ctx.characters?.[ctx.characterId]`
and `file_name` is `ctx.chat_metadata?.file_name`; `chatLen` is
`ctx.chat.length` (0 for a missing chat). -/
structure HostCtx where
  selected_group : Option String
  characterId : Option Int
  character : Option Character
  file_name : Option String
  chatLen : Nat
deriving Repr, DecidableEq

/-- Truthiness of an optional string property (absent and the empty
string are falsy). -/
def truthyOptStr : Option String → Bool
  | some s => s != ""
  | none => false

/-- JavaScript `a || b` on an optional string with a string fallback. -/
def jsOrString (a : Option String) (b : String) : String :=
  match a with
  | some s => if s == "" then b else s
  | none => b

/-- Embedding of `getCurrentChatId` (part_000 lines 149-157): the group
identity if a group is selected, else the chat file name or character
name, else null. -/
def getCurrentChatId (ctx : HostCtx) : Option String :=
  if truthyOptStr ctx.selected_group then
    some ("group-" ++ ctx.selected_group.getD "")
  else
    match ctx.characterId with
    | some _ =>
        match ctx.character with
        | some ch => some (jsOrString ctx.file_name ch.name)
        | none => none
    | none => none

/-- The captured context `lastPromptData`.  Its `timestamp` field is
never read by the scheduler and is omitted. -/
structure PromptData where
  chatId : Option String
  messageCount : Nat
deriving Repr, DecidableEq

/-- The module-level scheduler state.  `refreshTimer` and
`countdownInterval` are true while the corresponding callback is
pending; `secondsRemaining` and `refresherActive` drive the widget. -/
structure RefState where
  refreshTimer : Bool
  countdownInterval : Bool
  secondsRemaining : Nat
  refresherActive : Bool
  refreshCount : Nat
  lastPromptData : Option PromptData
  currentChatId : Option String
deriving Repr, DecidableEq

/-- Scheduler state at initialization. -/
def initRefState : RefState :=
  { refreshTimer := false, countdownInterval := false, secondsRemaining := 0
    refresherActive := false, refreshCount := 0, lastPromptData := none
    currentChatId := none }

/-- `stopRefreshTimer` (part_000 lines 254-266): clear both timers and
the display state. -/
def stopRefreshTimer (s : RefState) : RefState :=
  { s with refreshTimer := false, countdownInterval := false
           secondsRemaining := 0, refresherActive := false }

/-- `startRefreshTimer` (part_000 lines 226-252): cancel any pending
timers, then arm the countdown and the fire timer unless the feature is
disabled or the refresh budget is exhausted. -/
def startRefreshTimer (S : Settings) (s : RefState) : RefState :=
  let s := stopRefreshTimer s
  if !S.enabled || s.refreshCount ≥ S.maxRefreshes then s
  else
    { s with refresherActive := true
             secondsRemaining := S.interval / 1000
             countdownInterval := true
             refreshTimer := true }

/-- `resetRefresherState` (part_000 lines 268-273). -/
def resetRefresherState (s : RefState) : RefState :=
  { stopRefreshTimer s with refreshCount := 0, lastPromptData := none
                            currentChatId := none }

/-- `capturePromptData` (part_000 lines 159-184): on a completed
generation, reset the budget if the chat identity changed, record the
captured context and start the refresh timer. -/
def capturePromptData (S : Settings) (ctx : HostCtx) (s : RefState) : RefState :=
  if !S.enabled then s
  else if ctx.chatLen == 0 then s
  else
    let newChatId := getCurrentChatId ctx
    let s :=
      if newChatId ≠ s.currentChatId then
        { s with refreshCount := 0, currentChatId := newChatId }
      else s
    let s := { s with lastPromptData := some ⟨newChatId, ctx.chatLen⟩ }
    startRefreshTimer S s

/-- Result of one `sendCacheRefresh` call: the new state, whether the
refresh-send capability `generateQuietPrompt` was invoked, and the
notifications emitted. -/
structure FireResult where
  st : RefState
  sent : Bool
  notifs : List Notif
deriving Repr, DecidableEq

/-- Embedding of `sendCacheRefresh` (part_000 lines 186-224).  `ok` is
the outcome of the awaited `generateQuietPrompt` call (the host
capability is assumed present).  On failure the source schedules
`startRefreshTimer` after a 5 s backoff; that deferred arming is the
separate `REvent.backoffElapsed` step below. -/
def sendCacheRefresh (S : Settings) (ctx : HostCtx) (ok : Bool) (s : RefState) :
    FireResult :=
  if !S.enabled || s.lastPromptData.isNone then
    ⟨stopRefreshTimer s, false, []⟩
  else if s.refreshCount ≥ S.maxRefreshes then
    ⟨stopRefreshTimer s, false, notify S .limitReached⟩
  else if getCurrentChatId ctx ≠ (s.lastPromptData.getD ⟨none, 0⟩).chatId then
    ⟨stopRefreshTimer s, false, []⟩
  else if ok then
    let s := { s with refreshCount := s.refreshCount + 1 }
    ⟨startRefreshTimer S s, true, notify S (.refreshed s.refreshCount S.maxRefreshes)⟩
  else
    ⟨s, true, notify S .refreshFailed⟩

/-- `onChatChanged` (part_000 lines 994-999): a conversation change to a
different identity resets the whole refresher state. -/
def onChatChanged (ctx : HostCtx) (s : RefState) : RefState :=
  if getCurrentChatId ctx ≠ s.currentChatId then resetRefresherState s else s

/-- External events driving the scheduler: a completed generation
(`capture`), the fire timer elapsing (`fire`, with the active host
context and the send outcome), a conversation change, and the 5 s
failure backoff elapsing (which runs `startRefreshTimer` if the feature
is still enabled). -/
inductive REvent where
  | capture : HostCtx → REvent
  | fire : HostCtx → Bool → REvent
  | chatChanged : HostCtx → REvent
  | backoffElapsed : REvent
deriving Repr, DecidableEq

/-- One scheduler step.  A `fire` event is a no-op unless the fire timer
is pending; firing consumes the pending timeout before running
`sendCacheRefresh`. -/
def stepEvent (S : Settings) (s : RefState) : REvent → RefState × List Notif
  | .capture ctx => (capturePromptData S ctx s, [])
  | .fire ctx ok =>
      if s.refreshTimer then
        let r := sendCacheRefresh S ctx ok { s with refreshTimer := false }
        (r.st, r.notifs)
      else (s, [])
  | .chatChanged ctx => (onChatChanged ctx s, [])
  | .backoffElapsed => (if S.enabled then startRefreshTimer S s else s, [])

/-- Runs a sequence of scheduler events with fixed settings, collecting
all emitted notifications in order. -/
def runTrace (S : Settings) (evs : List REvent) (s : RefState) :
    RefState × List Notif :=
  match evs with
  | [] => (s, [])
  | e :: rest =>
      let r := stepEvent S s e
      let rr := runTrace S rest r.1
      (rr.1, r.2 ++ rr.2)

/-- A group-chat host context with the given group identifier and a
one-message chat, used by concrete scenarios. -/
def groupCtx (g : String) : HostCtx :=
  { selected_group := some g, characterId := none, character := none
    file_name := none, chatLen := 1 }

/-! ## Lemmas about property writes and the merge loop -/

theorem findVal_setKey_self (l : List (String × JVal)) (k : String) (v : JVal) :
    findVal (setKey l k v) k = v := by
  induction l with
  | nil => simp [setKey, findVal]
  | cons hd tl ih =>
      obtain ⟨ke, ve⟩ := hd
      cases hbeq : ke == k with
      | false => simp [setKey, findVal, hbeq, ih]
      | true => simp [setKey, findVal, hbeq]

theorem findVal_setKey_ne (l : List (String × JVal)) (k k2 : String) (v : JVal)
    (h : (k == k2) = false) : findVal (setKey l k v) k2 = findVal l k2 := by
  induction l with
  | nil => simp [setKey, findVal, h]
  | cons hd tl ih =>
      obtain ⟨ke, ve⟩ := hd
      cases hbeq : ke == k with
      | false => simp [setKey, findVal, hbeq, ih]
      | true =>
          have hek : ke = k := by simpa using hbeq
          subst hek
          simp [setKey, findVal, h]

theorem length_le_setKey (l : List (String × JVal)) (k : String) (v : JVal) :
    l.length ≤ (setKey l k v).length := by
  induction l with
  | nil => simp [setKey]
  | cons hd tl ih =>
      obtain ⟨ke, ve⟩ := hd
      cases hbeq : ke == k with
      | false =>
          simp only [setKey, hbeq, Bool.false_eq_true, if_false, List.length_cons]
          omega
      | true => simp [setKey, hbeq]

theorem setKey_ne_nil (l : List (String × JVal)) (k : String) (v : JVal) :
    setKey l k v ≠ [] := by
  cases l with
  | nil => simp [setKey]
  | cons hd tl =>
      obtain ⟨ke, ve⟩ := hd
      cases hbeq : ke == k with
      | false => simp [setKey, hbeq]
      | true => simp [setKey, hbeq]

theorem mergeCond_eq (acc : List (String × JVal)) (k : String) (v : JVal) :
    mergeCond acc k v = (populated v && (!isNumZero v || !truthy (findVal acc k))) := by
  simp [mergeCond, populated, Bool.and_assoc]

theorem length_le_mergeEntries (es : List (String × JVal)) :
    ∀ acc : List (String × JVal), acc.length ≤ (mergeEntries acc es).length := by
  induction es with
  | nil => intro acc; simp [mergeEntries]
  | cons e rest ih =>
      intro acc
      have h1 : acc.length ≤ (mergeStep acc e).length := by
        unfold mergeStep
        split
        · exact length_le_setKey acc e.1 e.2
        · exact le_refl _
      exact le_trans h1 (ih (mergeStep acc e))

theorem mergeEntries_ne_nil_left (es : List (String × JVal))
    (acc : List (String × JVal)) (h : acc ≠ []) : mergeEntries acc es ≠ [] := by
  have hlen := length_le_mergeEntries es acc
  have hpos : 0 < acc.length := List.length_pos.mpr h
  exact List.length_pos.mp (lt_of_lt_of_le hpos hlen)

theorem mergeEntries_of_no_pop (es : List (String × JVal)) :
    ∀ acc : List (String × JVal), (∀ kv ∈ es, populated kv.2 = false) →
      mergeEntries acc es = acc := by
  induction es with
  | nil => intro acc _; rfl
  | cons e rest ih =>
      intro acc h
      have he : populated e.2 = false := h e (by simp)
      have hcond : mergeCond acc e.1 e.2 = false := by
        rw [mergeCond_eq, he]; rfl
      have hstep : mergeStep acc e = acc := by simp [mergeStep, hcond]
      show mergeEntries (mergeStep acc e) rest = acc
      rw [hstep]
      exact ih acc (fun kv hkv => h kv (by simp [hkv]))

theorem mergeEntries_ne_nil_of_pop (es : List (String × JVal)) :
    ∀ acc : List (String × JVal), (∃ kv ∈ es, populated kv.2 = true) →
      mergeEntries acc es ≠ [] := by
  induction es with
  | nil => intro acc h; simp at h
  | cons e rest ih =>
      intro acc h
      show mergeEntries (mergeStep acc e) rest ≠ []
      by_cases hp : populated e.2 = true
      · by_cases hc : mergeCond acc e.1 e.2 = true
        · have hstep : mergeStep acc e = setKey acc e.1 e.2 := by
            simp [mergeStep, hc]
          rw [hstep]
          exact mergeEntries_ne_nil_left rest _ (setKey_ne_nil acc e.1 e.2)
        · have hcf : mergeCond acc e.1 e.2 = false := by
            cases hcv : mergeCond acc e.1 e.2
            · rfl
            · exact absurd hcv hc
          have hacc : acc ≠ [] := by
            intro hnil
            subst hnil
            rw [mergeCond_eq, hp] at hcf
            simp [findVal, truthy] at hcf
          have hstep : mergeStep acc e = acc := by simp [mergeStep, hcf]
          rw [hstep]
          exact mergeEntries_ne_nil_left rest acc hacc
      · obtain ⟨kv, hkv, hkvpop⟩ := h
        have hkvrest : kv ∈ rest := by
          rcases List.mem_cons.mp hkv with heq | hmem
          · exact absurd (heq ▸ hkvpop) hp
          · exact hmem
        have hcf : mergeCond acc e.1 e.2 = false := by
          rw [mergeCond_eq]
          cases hpv : populated e.2
          · rfl
          · exact absurd hpv hp
        have hstep : mergeStep acc e = acc := by simp [mergeStep, hcf]
        rw [hstep]
        exact ih acc ⟨kv, hkvrest, hkvpop⟩

theorem mergeEntries_eq_nil_iff (acc es : List (String × JVal)) :
    mergeEntries acc es = [] ↔ acc = [] ∧ ∀ kv ∈ es, populated kv.2 = false := by
  constructor
  · intro h
    constructor
    · by_contra hacc
      exact mergeEntries_ne_nil_left es acc hacc h
    · intro kv hkv
      cases hpv : populated kv.2
      · rfl
      · exact absurd h (mergeEntries_ne_nil_of_pop es acc ⟨kv, hkv, hpv⟩)
  · rintro ⟨hacc, hnopop⟩
    rw [mergeEntries_of_no_pop es acc hnopop, hacc]

theorem accNonempty_streamAccum (acc : Option (List (String × JVal))) (f : JVal) :
    accNonempty (streamAccum acc f) = (accNonempty acc || frameHasPop f) := by
  unfold streamAccum frameHasPop
  cases hx : extractUsageFromObject f with
  | none => simp
  | some u =>
      cases ht : truthy u with
      | false => simp [ht]
      | true =>
          simp only [ht, if_true, Bool.true_and]
          have hbase : (acc.getD []).isEmpty = !accNonempty acc := by
            cases acc <;> simp [accNonempty]
          by_cases hne : mergeEntries (acc.getD []) (jsEntries u) = []
          · obtain ⟨hb, hnopop⟩ := (mergeEntries_eq_nil_iff _ _).mp hne
            have h1 : accNonempty acc = false := by
              rw [hb] at hbase
              simpa using hbase.symm
            have h2 : (jsEntries u).any (fun kv => populated kv.2) = false := by
              rw [List.any_eq_false]
              intro kv hkv
              simp [hnopop kv hkv]
            rw [hne, h1, h2]
            rfl
          · have h1 : (accNonempty acc || (jsEntries u).any (fun kv => populated kv.2)) = true := by
              cases hA : accNonempty acc with
              | true => rfl
              | false =>
                  cases hAny : (jsEntries u).any (fun kv => populated kv.2) with
                  | true => rfl
                  | false =>
                      exfalso
                      apply hne
                      rw [mergeEntries_eq_nil_iff]
                      refine ⟨?_, ?_⟩
                      · have : (acc.getD []).isEmpty = true := by rw [hbase, hA]; rfl
                        exact List.isEmpty_iff.mp this
                      · intro kv hkv
                        cases hpv : populated kv.2 with
                        | false => rfl
                        | true =>
                            exact absurd hpv (List.any_eq_false.mp hAny kv hkv)
            rw [h1]
            simp only [accNonempty, Bool.not_eq_eq_eq_not, Bool.not_true]
            exact List.isEmpty_eq_false.mpr hne

theorem accNonempty_foldl (frames : List JVal) :
    ∀ acc : Option (List (String × JVal)),
      accNonempty (frames.foldl streamAccum acc)
        = (accNonempty acc || frames.any frameHasPop) := by
  induction frames with
  | nil => intro acc; simp
  | cons f fs ih =>
      intro acc
      simp only [List.foldl_cons, List.any_cons]
      rw [ih (streamAccum acc f), accNonempty_streamAccum, Bool.or_assoc]

/-- Claim C2: for every streamed response, however many frames carry
usage data, the accounting step receives at most one merged record:
`processCacheUsage` is called exactly once at stream end when at least
one populated usage field was found anywhere in the stream, and zero
times when none was found. -/
theorem c2_stream_calls_once (frames : List JVal) :
    streamCalls frames = if streamHasPopulated frames then 1 else 0 := by
  have h := accNonempty_foldl frames none
  unfold streamCalls streamUsageData
  unfold streamUsageData at h
  cases hfold : frames.foldl streamAccum none with
  | none =>
      rw [hfold] at h
      simp only [accNonempty, Bool.false_or] at h
      rw [streamHasPopulated, ← h]
      simp
  | some l =>
      rw [hfold] at h
      simp only [accNonempty, Bool.false_or] at h
      rw [streamHasPopulated, ← h]
      cases hl : l.isEmpty with
      | true =>
          have : l = [] := List.isEmpty_iff.mp hl
          subst this
          simp
      | false =>
          have : l ≠ [] := List.isEmpty_eq_false.mp hl
          have hpos : 0 < l.length := List.length_pos.mpr this
          simp [hpos]

/-- Claim C5: the stream-accumulator merge prefers later non-zero
values, a later zero never overwrites a stored non-zero value, an
absent field leaves the stored value unchanged, and the two-frame
round-trip example merges to exactly the claimed record. -/
theorem c5_merge_rule :
    (∀ (acc : List (String × JVal)) (k : String) (n : Int), n ≠ 0 →
        findVal (mergeEntries acc [(k, .jnum n)]) k = .jnum n)
  ∧ (∀ (acc : List (String × JVal)) (k : String) (m : Int),
        findVal acc k = .jnum m → m ≠ 0 →
        findVal (mergeEntries acc [(k, .jnum 0)]) k = .jnum m)
  ∧ (∀ (acc es : List (String × JVal)) (k : String),
        k ∉ es.map Prod.fst →
        findVal (mergeEntries acc es) k = findVal acc k)
  ∧ streamUsageData [mergeFrameA, mergeFrameB]
      = some [("cacheRead", .jnum 500), ("input", .jnum 100)] := by
  refine ⟨?_, ?_, ?_, ?_⟩
  · intro acc k n hn
    have hcond : mergeCond acc k (.jnum n) = true := by
      simp [mergeCond, isUndefined, isNull, isNumZero, hn]
    show findVal (mergeEntries (mergeStep acc (k, .jnum n)) []) k = .jnum n
    simp only [mergeEntries, mergeStep, hcond, if_true]
    exact findVal_setKey_self acc k (.jnum n)
  · intro acc k m hfind hm
    have htr : truthy (findVal acc k) = true := by
      rw [hfind]
      simp [truthy, hm]
    have hcond : mergeCond acc k (.jnum 0) = false := by
      simp [mergeCond, isUndefined, isNull, isNumZero, htr]
    show findVal (mergeEntries (mergeStep acc (k, .jnum 0)) []) k = .jnum m
    simp only [mergeEntries, mergeStep, hcond, Bool.false_eq_true, if_false]
    exact hfind
  · intro acc es k
    induction es generalizing acc with
    | nil => intro _; rfl
    | cons e rest ih =>
        intro hk
        have hke : (e.1 == k) = false := by
          have : e.1 ≠ k := by
            intro heq
            exact hk (by simp [← heq])
          simpa using this
        show findVal (mergeEntries (mergeStep acc e) rest) k = findVal acc k
        have hrest : k ∉ rest.map Prod.fst := by
          intro hmem
          exact hk (by simp [hmem])
        rw [ih (mergeStep acc e) hrest]
        unfold mergeStep
        split
        · exact findVal_setKey_ne acc e.1 k e.2 hke
        · rfl
  · rfl

/-- Claim C9: the usage extractor returns the nested usage object of an
Anthropic message_start frame, that object normalizes to
cacheReadTokens 200 and inputTokens 50, and extraction of a usage-free
object returns absent. -/
theorem c9_extractor_examples :
    extractUsageFromObject msgStartFrame
        = some (.jobj [("cache_read_input_tokens", .jnum 200), ("input_tokens", .jnum 50)])
  ∧ recordCacheRead
        (.jobj [("cache_read_input_tokens", .jnum 200), ("input_tokens", .jnum 50)]) = 200
  ∧ recordInput
        (.jobj [("cache_read_input_tokens", .jnum 200), ("input_tokens", .jnum 50)]) = 50
  ∧ extractUsageFromObject fooBarFrame = none :=
  ⟨rfl, rfl, rfl, rfl⟩

/-! ## Lemmas about the accounting step -/

theorem processCacheUsage_enabled (S : Settings) (now : Int) (m : MonState) (u : JVal)
    (hEn : S.monitorEnabled = true) (hT : truthy u = true) :
    processCacheUsage S now m u =
      if recordCacheRead u > 0 then
        (⟨{ requests := m.stats.requests + 1
            hits := m.stats.hits + 1
            misses := m.stats.misses
            cacheReadTokens := m.stats.cacheReadTokens + recordCacheRead u
            cacheWriteTokens := m.stats.cacheWriteTokens + recordCacheWrite u
            inputTokens := m.stats.inputTokens + recordInput u
            outputTokens := m.stats.outputTokens + recordOutput u
            savings := m.stats.savings + calculateSavings S (recordCacheRead u)
            consecutiveMisses := 0
            history := histStep m.stats.history (mkHistEntry S now u) },
          some now⟩, [])
      else
        (⟨{ requests := m.stats.requests + 1
            hits := m.stats.hits
            misses := m.stats.misses + 1
            cacheReadTokens := m.stats.cacheReadTokens + recordCacheRead u
            cacheWriteTokens := m.stats.cacheWriteTokens + recordCacheWrite u
            inputTokens := m.stats.inputTokens + recordInput u
            outputTokens := m.stats.outputTokens + recordOutput u
            savings := m.stats.savings + calculateSavings S (recordCacheRead u)
            consecutiveMisses := m.stats.consecutiveMisses + 1
            history := histStep m.stats.history (mkHistEntry S now u) },
          m.lastCacheHitTime⟩,
         if ((m.stats.consecutiveMisses + 1 : Int) == S.consecutiveMissWarning) = true
         then notify S (.missWarning (m.stats.consecutiveMisses + 1)) else []) := by
  unfold processCacheUsage
  rw [hEn, hT]
  simp only [Bool.not_true, Bool.false_eq_true, if_false]
  split
  · rfl
  · rfl

theorem step_requests (S : Settings) (now : Int) (m : MonState) (u : JVal)
    (hEn : S.monitorEnabled = true) (hT : truthy u = true) :
    (processCacheUsage S now m u).1.stats.requests = m.stats.requests + 1 := by
  rw [processCacheUsage_enabled S now m u hEn hT]
  split <;> rfl

theorem step_hits_misses (S : Settings) (now : Int) (m : MonState) (u : JVal)
    (hEn : S.monitorEnabled = true) (hT : truthy u = true) :
    (processCacheUsage S now m u).1.stats.hits + (processCacheUsage S now m u).1.stats.misses
      = m.stats.hits + m.stats.misses + 1 := by
  rw [processCacheUsage_enabled S now m u hEn hT]
  split
  · simp only []
    omega
  · simp only []
    omega

theorem step_cacheRead (S : Settings) (now : Int) (m : MonState) (u : JVal)
    (hEn : S.monitorEnabled = true) (hT : truthy u = true) :
    (processCacheUsage S now m u).1.stats.cacheReadTokens
      = m.stats.cacheReadTokens + recordCacheRead u := by
  rw [processCacheUsage_enabled S now m u hEn hT]
  split <;> rfl

theorem step_history (S : Settings) (now : Int) (m : MonState) (u : JVal)
    (hEn : S.monitorEnabled = true) (hT : truthy u = true) :
    (processCacheUsage S now m u).1.stats.history
      = histStep m.stats.history (mkHistEntry S now u) := by
  rw [processCacheUsage_enabled S now m u hEn hT]
  split <;> rfl

theorem step_cm_hit (S : Settings) (now : Int) (m : MonState) (u : JVal)
    (hEn : S.monitorEnabled = true) (hT : truthy u = true)
    (hHit : recordCacheRead u > 0) :
    (processCacheUsage S now m u).1.stats.consecutiveMisses = 0 := by
  rw [processCacheUsage_enabled S now m u hEn hT, if_pos hHit]

theorem step_cm_miss (S : Settings) (now : Int) (m : MonState) (u : JVal)
    (hEn : S.monitorEnabled = true) (hT : truthy u = true)
    (hMiss : ¬recordCacheRead u > 0) :
    (processCacheUsage S now m u).1.stats.consecutiveMisses
      = m.stats.consecutiveMisses + 1 := by
  rw [processCacheUsage_enabled S now m u hEn hT, if_neg hMiss]

theorem step_miss_counts (S : Settings) (now : Int) (m : MonState) (u : JVal)
    (hEn : S.monitorEnabled = true) (hT : truthy u = true)
    (hMiss : ¬recordCacheRead u > 0) :
    (processCacheUsage S now m u).1.stats.misses = m.stats.misses + 1 := by
  rw [processCacheUsage_enabled S now m u hEn hT, if_neg hMiss]

theorem step_warn_count (S : Settings) (now : Int) (m : MonState) (u : JVal)
    (hEn : S.monitorEnabled = true) (hN : S.showNotifications = true)
    (hT : truthy u = true) :
    (processCacheUsage S now m u).2.countP isMissWarning
      = if recordCacheRead u ≤ 0
           ∧ (m.stats.consecutiveMisses + 1 : Int) = S.consecutiveMissWarning
        then 1 else 0 := by
  rw [processCacheUsage_enabled S now m u hEn hT]
  by_cases hHit : recordCacheRead u > 0
  · rw [if_pos hHit]
    have : ¬(recordCacheRead u ≤ 0
        ∧ (m.stats.consecutiveMisses + 1 : Int) = S.consecutiveMissWarning) := by
      intro hc
      omega
    simp [this]
  · rw [if_neg hHit]
    have hle : recordCacheRead u ≤ 0 := by omega
    by_cases hcross : (m.stats.consecutiveMisses + 1 : Int) = S.consecutiveMissWarning
    · have hbeq : ((m.stats.consecutiveMisses + 1 : Int) == S.consecutiveMissWarning) = true := by
        simpa using hcross
      simp [hbeq, hle, hcross, notify, hN, isMissWarning]
    · have hbeq : ((m.stats.consecutiveMisses + 1 : Int) == S.consecutiveMissWarning) = false := by
        simpa using hcross
      simp [hbeq, hle, hcross]

theorem runMonitor_counts (S : Settings) (hEn : S.monitorEnabled = true)
    (us : List (Int × JVal)) :
    ∀ m : MonState, (∀ p ∈ us, truthy p.2 = true) →
      (runMonitor S us m).1.stats.requests = m.stats.requests + us.length
    ∧ (runMonitor S us m).1.stats.hits + (runMonitor S us m).1.stats.misses
        = m.stats.hits + m.stats.misses + us.length
    ∧ (runMonitor S us m).1.stats.cacheReadTokens
        = m.stats.cacheReadTokens + (us.map (fun p => recordCacheRead p.2)).sum := by
  induction us with
  | nil => intro m _; simp [runMonitor]
  | cons p rest ih =>
      intro m hT
      have hTp : truthy p.2 = true := hT p (by simp)
      have hTrest : ∀ q ∈ rest, truthy q.2 = true := fun q hq => hT q (by simp [hq])
      have hfst : (runMonitor S (p :: rest) m).1
          = (runMonitor S rest (processCacheUsage S p.1 m p.2).1).1 := rfl
      obtain ⟨ih1, ih2, ih3⟩ := ih (processCacheUsage S p.1 m p.2).1 hTrest
      rw [hfst]
      refine ⟨?_, ?_, ?_⟩
      · rw [ih1, step_requests S p.1 m p.2 hEn hTp]
        simp [Nat.add_assoc, Nat.add_comm 1 rest.length]
      · rw [ih2, step_hits_misses S p.1 m p.2 hEn hTp]
        simp only [List.length_cons]
        omega
      · rw [ih3, step_cacheRead S p.1 m p.2 hEn hTp]
        simp only [List.map_cons, List.sum_cons]
        ring

/-- Claim C3: over any sequence of processed records starting from the
initial (or freshly reset) statistics, hits + misses always equals
totalRequests, and the cumulative cacheReadTokens equals the sum of the
cacheReadTokens values of the processed records; resetting restores the
initial statistics. -/
theorem c3_accounting_invariants (S : Settings) (hEn : S.monitorEnabled = true)
    (us : List (Int × JVal)) (hT : ∀ p ∈ us, truthy p.2 = true)
    (hWf : ∀ p ∈ us, wfUsage p.2 = true) :
    (runMonitor S us initMonState).1.stats.hits
        + (runMonitor S us initMonState).1.stats.misses
        = (runMonitor S us initMonState).1.stats.requests
  ∧ (runMonitor S us initMonState).1.stats.cacheReadTokens
        = (us.map (fun p => recordCacheRead p.2)).sum
  ∧ (∀ m : MonState, (resetCacheStats S m).1 = initMonState) := by
  obtain ⟨h1, h2, h3⟩ := runMonitor_counts S hEn us initMonState hT
  refine ⟨?_, ?_, fun m => rfl⟩
  · rw [h1, h2]
    simp [initMonState, zeroStats]
  · rw [h3]
    simp [initMonState, zeroStats]

/-! ## Lemmas about the bounded history -/

theorem takeLast_length (k : Nat) (l : List α) :
    (takeLast k l).length = min l.length k := by
  unfold takeLast
  rw [List.length_drop]
  omega

theorem takeLast_of_le (k : Nat) (l : List α) (h : l.length ≤ k) :
    takeLast k l = l := by
  unfold takeLast
  rw [Nat.sub_eq_zero_of_le h, List.drop_zero]

theorem takeLast_takeLast_append (k : Nat) (xs ys : List α) :
    takeLast k (takeLast k xs ++ ys) = takeLast k (xs ++ ys) := by
  unfold takeLast
  rw [List.length_append, List.length_append, List.length_drop,
    List.drop_append_eq_append_drop, List.drop_append_eq_append_drop,
    List.drop_drop, List.length_drop]
  congr 1
  · congr 1
    omega
  · congr 1
    omega

theorem histStep_eq_takeLast (h : List HistEntry) (e : HistEntry) :
    histStep h e = takeLast 100 (h ++ [e]) := by
  unfold histStep takeLast
  dsimp only
  split
  · rfl
  · rename_i hle
    have : (h ++ [e]).length - 100 = 0 := by
      simp only [List.length_append, List.length_cons, List.length_nil] at *
      omega
    rw [this, List.drop_zero]

theorem foldl_histStep (l : List HistEntry) :
    ∀ h0 : List HistEntry, h0.length ≤ 100 →
      List.foldl histStep h0 l = takeLast 100 (h0 ++ l) := by
  induction l with
  | nil =>
      intro h0 hle
      simp only [List.foldl_nil, List.append_nil]
      exact (takeLast_of_le 100 h0 hle).symm
  | cons e rest ih =>
      intro h0 hle
      rw [List.foldl_cons, histStep_eq_takeLast]
      have hlen : (takeLast 100 (h0 ++ [e])).length ≤ 100 := by
        rw [takeLast_length]
        omega
      rw [ih _ hlen, takeLast_takeLast_append]
      congr 1
      simp

theorem runMonitor_history (S : Settings) (hEn : S.monitorEnabled = true)
    (us : List (Int × JVal)) :
    ∀ m : MonState, (∀ p ∈ us, truthy p.2 = true) →
      m.stats.history.length ≤ 100 →
      (runMonitor S us m).1.stats.history
        = List.foldl histStep m.stats.history
            (us.map (fun p => mkHistEntry S p.1 p.2)) := by
  induction us with
  | nil => intro m _ _; rfl
  | cons p rest ih =>
      intro m hT hlen
      have hTp : truthy p.2 = true := hT p (by simp)
      have hTrest : ∀ q ∈ rest, truthy q.2 = true := fun q hq => hT q (by simp [hq])
      have hfst : (runMonitor S (p :: rest) m).1
          = (runMonitor S rest (processCacheUsage S p.1 m p.2).1).1 := rfl
      have hh := step_history S p.1 m p.2 hEn hTp
      have hlen1 : (processCacheUsage S p.1 m p.2).1.stats.history.length ≤ 100 := by
        rw [hh, histStep_eq_takeLast, takeLast_length]
        omega
      rw [hfst, ih _ hTrest hlen1, hh, List.map_cons, List.foldl_cons]

/-- Claim C6: after N recorded usage entries since the last reset, the
history has length min(N, 100), and the retained entries are exactly
the most recent 100 records in arrival order. -/
theorem c6_history_bound (S : Settings) (hEn : S.monitorEnabled = true)
    (us : List (Int × JVal)) (hT : ∀ p ∈ us, truthy p.2 = true) :
    (runMonitor S us initMonState).1.stats.history
        = takeLast 100 (us.map (fun p => mkHistEntry S p.1 p.2))
  ∧ (runMonitor S us initMonState).1.stats.history.length = min us.length 100 := by
  have hnil : initMonState.stats.history = [] := rfl
  have h := runMonitor_history S hEn us initMonState hT (by rw [hnil]; simp)
  rw [foldl_histStep _ _ (by rw [hnil]; simp), hnil, List.nil_append] at h
  refine ⟨h, ?_⟩
  rw [h, takeLast_length, List.length_map]

theorem runMonitor_warn_count (S : Settings) (hEn : S.monitorEnabled = true)
    (hN : S.showNotifications = true) (ms : List (Int × JVal)) :
    ∀ m : MonState,
      (∀ p ∈ ms, truthy p.2 = true ∧ recordCacheRead p.2 ≤ 0) →
      (runMonitor S ms m).2.countP isMissWarning
        = if (m.stats.consecutiveMisses : Int) < S.consecutiveMissWarning
             ∧ S.consecutiveMissWarning ≤ (m.stats.consecutiveMisses : Int) + ms.length
          then 1 else 0 := by
  induction ms with
  | nil =>
      intro m _
      simp only [runMonitor, List.countP_nil, List.length_nil, Nat.cast_zero, add_zero]
      rw [if_neg (by omega)]
  | cons p rest ih =>
      intro m hms
      obtain ⟨hTp, hMp⟩ := hms p (by simp)
      have hrest : ∀ q ∈ rest, truthy q.2 = true ∧ recordCacheRead q.2 ≤ 0 :=
        fun q hq => hms q (by simp [hq])
      have hsnd : (runMonitor S (p :: rest) m).2
          = (processCacheUsage S p.1 m p.2).2
            ++ (runMonitor S rest (processCacheUsage S p.1 m p.2).1).2 := rfl
      rw [hsnd, List.countP_append]
      rw [step_warn_count S p.1 m p.2 hEn hN hTp]
      rw [ih _ hrest]
      have hcm := step_cm_miss S p.1 m p.2 hEn hTp (by omega)
      rw [hcm]
      simp only [List.length_cons]
      by_cases hcross : (m.stats.consecutiveMisses + 1 : Int) = S.consecutiveMissWarning
      · rw [if_pos ⟨hMp, hcross⟩]
        have : ¬((((m.stats.consecutiveMisses + 1 : Nat) : Int) < S.consecutiveMissWarning)
            ∧ S.consecutiveMissWarning ≤ ((m.stats.consecutiveMisses + 1 : Nat) : Int) + rest.length) := by
          push_cast
          omega
        rw [if_neg this, if_pos (by push_cast; omega)]
      · rw [if_neg (by tauto)]
        by_cases h2 : (((m.stats.consecutiveMisses + 1 : Nat) : Int) < S.consecutiveMissWarning)
            ∧ S.consecutiveMissWarning ≤ ((m.stats.consecutiveMisses + 1 : Nat) : Int) + rest.length
        · rw [if_pos h2, if_pos (by push_cast at h2 ⊢; omega)]
        · rw [if_neg h2, if_neg (by push_cast at h2 ⊢; omega)]

/-- Claim C7: a recorded hit resets consecutiveMisses to 0, a miss
increments it, the consecutive-miss warning fires exactly when the
incremented counter equals the configured threshold, and over an
unbroken run of misses starting from a zero counter the warning fires
exactly once when the run reaches the threshold and never again. -/
theorem c7_consecutive_miss_warning (S : Settings) (hEn : S.monitorEnabled = true)
    (hN : S.showNotifications = true) :
    (∀ (now : Int) (m : MonState) (u : JVal), truthy u = true →
        (recordCacheRead u > 0 →
          (processCacheUsage S now m u).1.stats.consecutiveMisses = 0)
      ∧ (recordCacheRead u ≤ 0 →
          (processCacheUsage S now m u).1.stats.consecutiveMisses
            = m.stats.consecutiveMisses + 1)
      ∧ ((processCacheUsage S now m u).2.countP isMissWarning = 1
          ↔ recordCacheRead u ≤ 0
            ∧ (m.stats.consecutiveMisses + 1 : Int) = S.consecutiveMissWarning))
  ∧ (∀ (ms : List (Int × JVal)) (m : MonState),
        m.stats.consecutiveMisses = 0 →
        (∀ p ∈ ms, truthy p.2 = true ∧ recordCacheRead p.2 ≤ 0) →
        (runMonitor S ms m).2.countP isMissWarning
          = if 1 ≤ S.consecutiveMissWarning
               ∧ S.consecutiveMissWarning ≤ (ms.length : Int)
            then 1 else 0) := by
  constructor
  · intro now m u hT
    refine ⟨step_cm_hit S now m u hEn hT, ?_, ?_⟩
    · intro hle
      exact step_cm_miss S now m u hEn hT (by omega)
    · rw [step_warn_count S now m u hEn hN hT]
      by_cases hc : recordCacheRead u ≤ 0
          ∧ (m.stats.consecutiveMisses + 1 : Int) = S.consecutiveMissWarning
      · rw [if_pos hc]
        simp [hc]
      · rw [if_neg hc]
        simp [hc]
  · intro ms m hcm0 hms
    rw [runMonitor_warn_count S hEn hN ms m hms, hcm0]
    simp only [Nat.cast_zero, zero_add]
    rfl

/-- Claim C10: every truthy usage object processed while the monitor is
enabled increments totalRequests, and one in which every recognized
token field is absent, null or zero is classified as a cache miss,
incrementing misses and consecutiveMisses. -/
theorem c10_empty_fields_count_as_miss (S : Settings) (now : Int) (m : MonState)
    (hEn : S.monitorEnabled = true) :
    (∀ u : JVal, truthy u = true →
        (processCacheUsage S now m u).1.stats.requests = m.stats.requests + 1)
  ∧ (∀ u : JVal, truthy u = true →
        emptyTok (getField u "cache_read_input_tokens") = true →
        emptyTok (getField u "cacheReadInputTokens") = true →
        emptyTok (getField u "cache_creation_input_tokens") = true →
        emptyTok (getField u "cacheCreationInputTokens") = true →
        emptyTok (getField u "input_tokens") = true →
        emptyTok (getField u "prompt_tokens") = true →
        emptyTok (getField u "output_tokens") = true →
        emptyTok (getField u "completion_tokens") = true →
        (processCacheUsage S now m u).1.stats.requests = m.stats.requests + 1
      ∧ (processCacheUsage S now m u).1.stats.misses = m.stats.misses + 1
      ∧ (processCacheUsage S now m u).1.stats.consecutiveMisses
          = m.stats.consecutiveMisses + 1) := by
  have hfalsy : ∀ v : JVal, emptyTok v = true → truthy v = false := by
    intro v hv
    cases v with
    | jnum n =>
        simp only [emptyTok, isUndefined, isNull, isNumZero, Bool.or_false,
          Bool.false_or] at hv
        have hn : n = 0 := by simpa using hv
        simp [truthy, hn]
    | jundefined => rfl
    | jnull => rfl
    | jstr s => simp [emptyTok, isUndefined, isNull, isNumZero] at hv
    | jbool b => simp [emptyTok, isUndefined, isNull, isNumZero] at hv
    | jobj fs => simp [emptyTok, isUndefined, isNull, isNumZero] at hv
  constructor
  · intro u hT
    exact step_requests S now m u hEn hT
  · intro u hT h1 h2 _ _ _ _ _ _
    have hnorm : ∀ a b : JVal, truthy a = false → truthy b = false →
        normTok a b = .jnum 0 := by
      intro a b ha hb
      simp [normTok, jsOrJ, ha, hb]
    have hcr : recordCacheRead u = 0 := by
      unfold recordCacheRead
      rw [hnorm _ _ (hfalsy _ h1) (hfalsy _ h2)]
      rfl
    have hMiss : ¬recordCacheRead u > 0 := by omega
    exact ⟨step_requests S now m u hEn hT,
      step_miss_counts S now m u hEn hT hMiss,
      step_cm_miss S now m u hEn hT hMiss⟩

/-- Claim C8: for every non-negative cacheReadTokens the per-record
savings equals max(0, tokens/1e6 * inputPrice - tokens/1e6 *
cacheReadPrice) for the configured pricing entry, an unknown key falls
back to the claude-sonnet-4 entry, and the concrete instance with
pricing input 3.00 / cacheRead 0.30 and one million tokens yields
2.70. -/
theorem c8_savings_formula (S : Settings) (t : Int) (ht : 0 ≤ t) :
    calculateSavings S t
      = max 0 ((t : ℚ) / 1000000 * (pricingFor S).input
          - (t : ℚ) / 1000000 * (pricingFor S).cacheRead)
  ∧ (lookupPricing S.pricingModel = none → pricingFor S = ⟨3, 375/100, 30/100⟩)
  ∧ calculateSavings defaultSettings 1000000 = 27/10 := by
  refine ⟨rfl, ?_, ?_⟩
  · intro h
    simp [pricingFor, h]
  · norm_num [calculateSavings, pricingFor, lookupPricing, PRICING_MODELS, defaultSettings]

/-! ## Lemmas about the refresh scheduler -/

theorem startRefreshTimer_currentChatId (S : Settings) (s : RefState) :
    (startRefreshTimer S s).currentChatId = s.currentChatId := by
  unfold startRefreshTimer stopRefreshTimer
  dsimp only
  split <;> rfl

theorem startRefreshTimer_lastPromptData (S : Settings) (s : RefState) :
    (startRefreshTimer S s).lastPromptData = s.lastPromptData := by
  unfold startRefreshTimer stopRefreshTimer
  dsimp only
  split <;> rfl

theorem startRefreshTimer_refreshCount (S : Settings) (s : RefState) :
    (startRefreshTimer S s).refreshCount = s.refreshCount := by
  unfold startRefreshTimer stopRefreshTimer
  dsimp only
  split <;> rfl

theorem startRefreshTimer_armed (S : Settings) (s : RefState)
    (h : (startRefreshTimer S s).refreshTimer = true) :
    S.enabled = true ∧ s.refreshCount < S.maxRefreshes := by
  unfold startRefreshTimer stopRefreshTimer at h
  dsimp only at h
  by_cases hc : !S.enabled || s.refreshCount ≥ S.maxRefreshes
  · rw [if_pos hc] at h
    simp at h
  · rw [if_neg hc] at h
    simp only [Bool.or_eq_true, Bool.not_eq_true, decide_eq_true_eq, not_or] at hc
    push_neg at hc
    obtain ⟨h1, h2⟩ := hc
    exact ⟨by simpa using h1, by omega⟩

theorem capturePromptData_fields (S : Settings) (ctx : HostCtx) (s : RefState)
    (hEn : S.enabled = true) (hLen : ctx.chatLen ≠ 0) :
    (capturePromptData S ctx s).currentChatId = getCurrentChatId ctx
  ∧ (capturePromptData S ctx s).lastPromptData
      = some ⟨getCurrentChatId ctx, ctx.chatLen⟩ := by
  have hlen0 : (ctx.chatLen == 0) = false := by simpa using hLen
  unfold capturePromptData
  rw [hEn, hlen0]
  simp only [Bool.not_true, Bool.false_eq_true, if_false]
  by_cases hid : getCurrentChatId ctx ≠ s.currentChatId
  · rw [if_pos hid]
    rw [startRefreshTimer_currentChatId, startRefreshTimer_lastPromptData]
    exact ⟨rfl, rfl⟩
  · rw [if_neg hid]
    push_neg at hid
    rw [startRefreshTimer_currentChatId, startRefreshTimer_lastPromptData]
    exact ⟨hid.symm, rfl⟩

/-- Claim C1: a pending fire whose captured context records a
conversation identity different from the live identity aborts without
invoking the refresh-send capability and stops the scheduler; in
particular, arming for identity A and then observing a conversation
change to B yields a disarmed scheduler and no refresh-send call for
the stale arming. -/
theorem c1_conversation_guard :
    (∀ (S : Settings) (ctx : HostCtx) (s : RefState) (pd : PromptData) (ok : Bool),
        s.lastPromptData = some pd →
        getCurrentChatId ctx ≠ pd.chatId →
        (sendCacheRefresh S ctx ok s).sent = false
      ∧ (sendCacheRefresh S ctx ok s).st.refreshTimer = false
      ∧ (sendCacheRefresh S ctx ok s).st.refresherActive = false)
  ∧ (∀ (S : Settings) (ctxA ctxB : HostCtx) (s : RefState) (ok : Bool),
        S.enabled = true → ctxA.chatLen ≠ 0 →
        getCurrentChatId ctxB ≠ getCurrentChatId ctxA →
        (onChatChanged ctxB (capturePromptData S ctxA s)).refreshTimer = false
      ∧ (sendCacheRefresh S ctxB ok
            (onChatChanged ctxB (capturePromptData S ctxA s))).sent = false) := by
  constructor
  · intro S ctx s pd ok hpd hne
    unfold sendCacheRefresh
    rw [hpd]
    simp only [Option.isNone_some, Bool.or_false, Option.getD_some]
    split_ifs with h1 h2
    · exact ⟨rfl, rfl, rfl⟩
    · exact ⟨rfl, rfl, rfl⟩
    · exact ⟨rfl, rfl, rfl⟩
  · intro S ctxA ctxB s ok hEn hLen hNe
    obtain ⟨hcur, hpd⟩ := capturePromptData_fields S ctxA s hEn hLen
    have hchange : onChatChanged ctxB (capturePromptData S ctxA s)
        = resetRefresherState (capturePromptData S ctxA s) := by
      unfold onChatChanged
      rw [if_pos (by rw [hcur]; exact hNe)]
    rw [hchange]
    refine ⟨rfl, ?_⟩
    unfold sendCacheRefresh
    have hnone : (resetRefresherState (capturePromptData S ctxA s)).lastPromptData
        = none := rfl
    rw [hnone]
    simp only [Option.isNone_none, Bool.or_true, if_true]

theorem startRefreshTimer_inv (S : Settings) (s : RefState)
    (h1 : s.refreshCount ≤ S.maxRefreshes) :
    (startRefreshTimer S s).refreshCount ≤ S.maxRefreshes
  ∧ ((startRefreshTimer S s).refreshTimer = true →
        (startRefreshTimer S s).refreshCount < S.maxRefreshes) := by
  constructor
  · rw [startRefreshTimer_refreshCount]
    exact h1
  · intro ht
    rw [startRefreshTimer_refreshCount]
    exact (startRefreshTimer_armed S s ht).2

theorem notify_no_limit (S : Settings) (n : Notif) (h : isLimitReached n = false) :
    (notify S n).countP isLimitReached = 0 := by
  unfold notify
  split
  · simp [h]
  · rfl

theorem sendCacheRefresh_inv (S : Settings) (ctx : HostCtx) (ok : Bool) (s : RefState)
    (h1 : s.refreshCount ≤ S.maxRefreshes)
    (hlt : s.refreshCount < S.maxRefreshes) :
    (sendCacheRefresh S ctx ok s).st.refreshCount ≤ S.maxRefreshes
  ∧ ((sendCacheRefresh S ctx ok s).st.refreshTimer = true →
        (sendCacheRefresh S ctx ok s).st.refreshCount < S.maxRefreshes)
  ∧ (sendCacheRefresh S ctx ok s).notifs.countP isLimitReached = 0 := by
  unfold sendCacheRefresh
  split_ifs with hB1 hB2 hB3
  · exact ⟨h1, by intro h; simp [stopRefreshTimer] at h, rfl⟩
  · omega
  · exact ⟨h1, by intro h; simp [stopRefreshTimer] at h, rfl⟩
  · refine ⟨?_, ?_, notify_no_limit S _ rfl⟩
    · rw [startRefreshTimer_refreshCount]
      exact hlt
    · intro ht
      rw [startRefreshTimer_refreshCount]
      exact (startRefreshTimer_armed S _ ht).2
  · exact ⟨h1, fun _ => hlt, notify_no_limit S _ rfl⟩

theorem stepEvent_inv (S : Settings) (s : RefState) (e : REvent)
    (h1 : s.refreshCount ≤ S.maxRefreshes)
    (h2 : s.refreshTimer = true → s.refreshCount < S.maxRefreshes) :
    ((stepEvent S s e).1.refreshCount ≤ S.maxRefreshes
      ∧ ((stepEvent S s e).1.refreshTimer = true →
            (stepEvent S s e).1.refreshCount < S.maxRefreshes))
  ∧ (stepEvent S s e).2.countP isLimitReached = 0 := by
  cases e with
  | capture ctx =>
      refine ⟨?_, rfl⟩
      show (capturePromptData S ctx s).refreshCount ≤ S.maxRefreshes
        ∧ ((capturePromptData S ctx s).refreshTimer = true →
            (capturePromptData S ctx s).refreshCount < S.maxRefreshes)
      unfold capturePromptData
      split
      · exact ⟨h1, h2⟩
      · split
        · exact ⟨h1, h2⟩
        · dsimp only
          split
          · exact startRefreshTimer_inv S _ (Nat.zero_le _)
          · exact startRefreshTimer_inv S _ h1
  | fire ctx ok =>
      dsimp only [stepEvent]
      split
      · rename_i ht
        have hlt := h2 ht
        have hr := sendCacheRefresh_inv S ctx ok { s with refreshTimer := false } h1 hlt
        exact ⟨⟨hr.1, hr.2.1⟩, hr.2.2⟩
      · exact ⟨⟨h1, h2⟩, rfl⟩
  | chatChanged ctx =>
      refine ⟨?_, rfl⟩
      show (onChatChanged ctx s).refreshCount ≤ S.maxRefreshes
        ∧ ((onChatChanged ctx s).refreshTimer = true →
            (onChatChanged ctx s).refreshCount < S.maxRefreshes)
      unfold onChatChanged
      split
      · refine ⟨Nat.zero_le _, ?_⟩
        intro h
        simp [resetRefresherState, stopRefreshTimer] at h
      · exact ⟨h1, h2⟩
  | backoffElapsed =>
      refine ⟨?_, rfl⟩
      dsimp only [stepEvent]
      split
      · exact startRefreshTimer_inv S s h1
      · exact ⟨h1, h2⟩

theorem runTrace_inv (S : Settings) (evs : List REvent) :
    ∀ s : RefState,
      s.refreshCount ≤ S.maxRefreshes →
      (s.refreshTimer = true → s.refreshCount < S.maxRefreshes) →
      ((runTrace S evs s).1.refreshCount ≤ S.maxRefreshes
        ∧ ((runTrace S evs s).1.refreshTimer = true →
              (runTrace S evs s).1.refreshCount < S.maxRefreshes))
    ∧ (runTrace S evs s).2.countP isLimitReached = 0 := by
  induction evs with
  | nil => intro s h1 h2; exact ⟨⟨h1, h2⟩, rfl⟩
  | cons e rest ih =>
      intro s h1 h2
      obtain ⟨⟨a1, a2⟩, a3⟩ := stepEvent_inv S s e h1 h2
      obtain ⟨⟨b1, b2⟩, b3⟩ := ih (stepEvent S s e).1 a1 a2
      have hfst : (runTrace S (e :: rest) s).1
          = (runTrace S rest (stepEvent S s e).1).1 := rfl
      have hsnd : (runTrace S (e :: rest) s).2
          = (stepEvent S s e).2 ++ (runTrace S rest (stepEvent S s e).1).2 := rfl
      rw [hfst, hsnd, List.countP_append, a3, b3]
      exact ⟨⟨b1, b2⟩, rfl⟩

/-- Claim C4 (amended): over every event sequence with fixed settings
the refresh counter never exceeds maxRefreshes, but reaching the cap
surfaces no terminal limit-reached notification at all: the fire timer
is only ever armed while the counter is below the cap, so the guard
that would emit the notification never triggers. -/
theorem c4_amended_cap_never_exceeded (S : Settings) (evs : List REvent) :
    (runTrace S evs initRefState).1.refreshCount ≤ S.maxRefreshes
  ∧ (runTrace S evs initRefState).2.countP isLimitReached = 0 := by
  obtain ⟨⟨a1, _⟩, a3⟩ := runTrace_inv S evs initRefState (Nat.zero_le _)
    (by intro h; simp [initRefState] at h)
  exact ⟨a1, a3⟩

/-- Counterexample to claim C4 as stated: with maxRefreshes = 1 the
counter reaches the cap after one successful fire, yet the whole trace
surfaces zero limit-reached notifications, not exactly one. -/
theorem c4_counterexample_limit_never_notified :
    ((runTrace { defaultSettings with maxRefreshes := 1 }
        [REvent.capture (groupCtx "A"), REvent.fire (groupCtx "A") true,
         REvent.capture (groupCtx "A"), REvent.fire (groupCtx "A") true]
        initRefState).1.refreshCount = 1)
  ∧ ((runTrace { defaultSettings with maxRefreshes := 1 }
        [REvent.capture (groupCtx "A"), REvent.fire (groupCtx "A") true,
         REvent.capture (groupCtx "A"), REvent.fire (groupCtx "A") true]
        initRefState).2.countP isLimitReached = 0)
  ∧ ¬((runTrace { defaultSettings with maxRefreshes := 1 }
        [REvent.capture (groupCtx "A"), REvent.fire (groupCtx "A") true,
         REvent.capture (groupCtx "A"), REvent.fire (groupCtx "A") true]
        initRefState).2.countP isLimitReached = 1) := by
  refine ⟨?_, ?_, ?_⟩ <;> decide

/-! ## Concrete witnesses for the theorems with hypotheses -/

theorem c1_conversation_guard_witness :
    (sendCacheRefresh defaultSettings (groupCtx "B") true
        { initRefState with lastPromptData := some ⟨some "group-A", 1⟩ }).sent = false
  ∧ (onChatChanged (groupCtx "B")
        (capturePromptData defaultSettings (groupCtx "A") initRefState)).refreshTimer
      = false :=
  ⟨(c1_conversation_guard.1 defaultSettings (groupCtx "B")
      { initRefState with lastPromptData := some ⟨some "group-A", 1⟩ }
      ⟨some "group-A", 1⟩ true rfl (by decide)).1,
   (c1_conversation_guard.2 defaultSettings (groupCtx "A") (groupCtx "B")
      initRefState true rfl (by decide) (by decide)).1⟩

theorem c3_accounting_invariants_witness :
    (runMonitor defaultSettings sampleRecords initMonState).1.stats.hits
        + (runMonitor defaultSettings sampleRecords initMonState).1.stats.misses
        = (runMonitor defaultSettings sampleRecords initMonState).1.stats.requests
  ∧ (runMonitor defaultSettings sampleRecords initMonState).1.stats.cacheReadTokens
        = (sampleRecords.map (fun p => recordCacheRead p.2)).sum
  ∧ (∀ m : MonState, (resetCacheStats defaultSettings m).1 = initMonState) :=
  c3_accounting_invariants defaultSettings rfl sampleRecords (by decide) (by decide)

theorem c5_merge_rule_witness :
    findVal (mergeEntries [("input", JVal.jnum 100)] [("cacheRead", JVal.jnum 500)])
        "cacheRead" = JVal.jnum 500
  ∧ findVal (mergeEntries [("cacheRead", JVal.jnum 500)] [("cacheRead", JVal.jnum 0)])
        "cacheRead" = JVal.jnum 500
  ∧ findVal (mergeEntries [("cacheRead", JVal.jnum 500)] [("input", JVal.jnum 100)])
        "cacheRead" = JVal.jnum 500 :=
  ⟨c5_merge_rule.1 [("input", .jnum 100)] "cacheRead" 500 (by decide),
   c5_merge_rule.2.1 [("cacheRead", .jnum 500)] "cacheRead" 500 rfl (by decide),
   c5_merge_rule.2.2.1 [("cacheRead", .jnum 500)] [("input", .jnum 100)] "cacheRead"
     (by decide)⟩

theorem c6_history_bound_witness :
    (runMonitor defaultSettings sampleRecords initMonState).1.stats.history
        = takeLast 100 (sampleRecords.map (fun p => mkHistEntry defaultSettings p.1 p.2))
  ∧ (runMonitor defaultSettings sampleRecords initMonState).1.stats.history.length
        = min sampleRecords.length 100 :=
  c6_history_bound defaultSettings rfl sampleRecords (by decide)

theorem c7_consecutive_miss_warning_witness :
    (runMonitor defaultSettings sampleMisses initMonState).2.countP isMissWarning
      = if 1 ≤ defaultSettings.consecutiveMissWarning
           ∧ defaultSettings.consecutiveMissWarning ≤ (sampleMisses.length : Int)
        then 1 else 0 :=
  (c7_consecutive_miss_warning defaultSettings rfl rfl).2 sampleMisses initMonState rfl
    (by decide)

theorem c8_savings_formula_witness :
    (0 : Int) ≤ 1000000 ∧ calculateSavings defaultSettings 1000000 = 27/10 :=
  ⟨by decide, (c8_savings_formula defaultSettings 1000000 (by decide)).2.2⟩

theorem c10_empty_fields_count_as_miss_witness :
    (processCacheUsage defaultSettings 0 initMonState (JVal.jobj [])).1.stats.requests
        = initMonState.stats.requests + 1
  ∧ (processCacheUsage defaultSettings 0 initMonState (JVal.jobj [])).1.stats.misses
        = initMonState.stats.misses + 1 :=
  ⟨(c10_empty_fields_count_as_miss defaultSettings 0 initMonState rfl).1
      (JVal.jobj []) rfl,
   ((c10_empty_fields_count_as_miss defaultSettings 0 initMonState rfl).2
      (JVal.jobj []) rfl rfl rfl rfl rfl rfl rfl rfl rfl).2.1⟩

end CacheRefresher
